import Mathlib

/-
Verification of the cardapiopro-web client against its specification.

The development shallowly embeds the cart/order-submission workflow of the
menu page component (addProduct, removeProduct, clearCart,
syncCartWithProducts, totalCents, validateCustomer, validatePayment,
parseBRLToCents, postWithRetry, finalizeOrder) and the order-tracking
polling logic (fetchOrder with stopPolling/scheduleNext).

Modelling conventions:
- A JS object used as a string-keyed record is an association list with
  unique keys; spread-update replaces the binding in place (or appends a
  new key at the end) and delete removes the binding, exactly as JS does.
- JS numbers holding integer cent amounts are Nat (quantities, prices) or
  Int (signed parse results).  The one float computation,
  Math.round(Number(cleaned) * 100), is modelled exactly over the decimal
  value denoted by the cleaned literal (see DecValue below).
- Network effects are oracles: a function or list giving the outcome of
  each fetch, so a run of the code is a pure function of its oracle.
-/

namespace Cardapio

/-- Product record, from the Product type of the menu client. -/
structure Product where
  id : String
  name : String
  description : Option String
  priceCents : Nat
  imageUrl : Option String
  active : Bool
  restaurantId : String
deriving DecidableEq

/-- Cart line: a product record plus a quantity, from the CartItem type. -/
structure CartItem where
  product : Product
  qty : Nat
deriving DecidableEq

/-- The cart state: a JS record keyed by product id, modelled as an
association list with unique keys. -/
abbrev Cart := List (String × CartItem)

/-- Reading prev[id] on a JS record: the binding for the key, if present. -/
def cartLookup : Cart → String → Option CartItem
  | [], _ => none
  | e :: rest, id => if e.1 = id then some e.2 else cartLookup rest id

/-- The JS spread update ∖x7b...prev, [id]: item∖x7d: replace the binding in
place when the key exists, append it otherwise. -/
def cartSet : Cart → String → CartItem → Cart
  | [], id, item => [(id, item)]
  | e :: rest, id, item =>
    if e.1 = id then (id, item) :: rest else e :: cartSet rest id item

/-- The JS delete copy[id]: drop the binding for the key. -/
def cartErase : Cart → String → Cart
  | [], _ => []
  | e :: rest, id => if e.1 = id then cartErase rest id else e :: cartErase rest id

/-- Object.keys of the cart. -/
def cartKeys (c : Cart) : List String := c.map (·.1)

/-- Object.values of the cart, the cartItems memo of the component. -/
def cartItemsOf (c : Cart) : List CartItem := c.map (·.2)

/-- addProduct from the menu client: no-op on an inactive product,
otherwise increment the quantity of the entry for p.id, creating it at 1. -/
def addProduct (p : Product) (c : Cart) : Cart :=
  if p.active = false then c
  else
    let nextQty := (match cartLookup c p.id with
      | none => 0
      | some existing => existing.qty) + 1
    cartSet c p.id ⟨p, nextQty⟩

/-- removeProduct from the menu client: no-op when the entry is absent;
otherwise decrement, deleting the entry when the new quantity is ≤ 0.
Quantities are Nat here; for every state the code can reach the JS test
nextQty <= 0 coincides with the Nat test below. -/
def removeProduct (p : Product) (c : Cart) : Cart :=
  match cartLookup c p.id with
  | none => c
  | some existing =>
    let nextQty := existing.qty - 1
    if nextQty ≤ 0 then cartErase c p.id
    else cartSet c p.id ⟨p, nextQty⟩

/-- clearCart: setCart(∖x7b∖x7d). -/
def clearCart : Cart := []

/-- Lookup in new Map(nextProducts.map(p => [p.id, p])): later list entries
overwrite earlier ones, which the left fold reproduces. -/
def lookupFresh (ps : List Product) (id : String) : Option Product :=
  ps.foldl (fun acc p => if p.id = id then some p else acc) none

/-- One iteration of the key loop of syncCartWithProducts, acting on the
(cart, changed) pair: delete the entry when the product is gone or
inactive (recording changed), otherwise refresh its product data keeping
the quantity.  The inner none case cannot arise on unique-key carts; it
returns the accumulator unchanged. -/
def syncEntryStep (fresh : List Product) (acc : Cart × Bool) (id : String) :
    Cart × Bool :=
  match lookupFresh fresh id with
  | none => (cartErase acc.1 id, true)
  | some p =>
    if p.active = false then (cartErase acc.1 id, true)
    else
      match cartLookup acc.1 id with
      | some item => (cartSet acc.1 id ⟨p, item.qty⟩, acc.2)
      | none => acc

/-- syncCartWithProducts from the menu client: fold the key loop over
Object.keys of the current cart, starting from the cart copy and the
changed flag initialised to false. -/
def syncCartWithProducts (fresh : List Product) (c : Cart) : Cart × Bool :=
  (cartKeys c).foldl (syncEntryStep fresh) (c, false)

/-- The cart component of one key-loop iteration (proof helper mirroring
syncEntryStep on carts alone). -/
def syncStep (fresh : List Product) (a : Cart) (id : String) : Cart :=
  match lookupFresh fresh id with
  | none => cartErase a id
  | some p =>
    if p.active = false then cartErase a id
    else
      match cartLookup a id with
      | some item => cartSet a id ⟨p, item.qty⟩
      | none => a

/-- Per-entry characterisation of reconciliation (proof helper): what one
cart binding becomes under a fresh catalog. -/
def syncEntry (fresh : List Product) (e : String × CartItem) :
    Option (String × CartItem) :=
  match lookupFresh fresh e.1 with
  | none => none
  | some p => if p.active = false then none else some (e.1, ⟨p, e.2.qty⟩)

/-- totalCents from the menu client: reduce over cartItems with
acc + item.product.priceCents * item.qty from 0. -/
def totalCents (items : List CartItem) : Nat :=
  items.foldl (fun acc item => acc + item.product.priceCents * item.qty) 0

/-- Spec-side total: the sum over cart entries of price times quantity. -/
def entriesTotal (c : Cart) : Nat :=
  (c.map (fun e => e.2.product.priceCents * e.2.qty)).sum

/- ===== string helpers ===== -/

/-- Bool prefix test on character lists. -/
def listStartsWith : List Char → List Char → Bool
  | _, [] => true
  | [], _ :: _ => false
  | c :: cs, p :: ps => c == p && listStartsWith cs ps

/-- Bool infix test on character lists (pat first), as JS includes. -/
def listHasInfix (pat : List Char) : List Char → Bool
  | [] => listStartsWith [] pat
  | c :: rest => listStartsWith (c :: rest) pat || listHasInfix pat rest

/-- msg.includes(pat) from JS, on Lean strings. -/
def strHasSub (s pat : String) : Bool := listHasInfix pat.toList s.toList

/-- The JS String.prototype.trim. -/
def jsTrim (s : String) : String :=
  String.mk
    (((s.toList.dropWhile Char.isWhitespace).reverse.dropWhile
        Char.isWhitespace).reverse)

/-- s.replace(regex of whitespace, "") with the global flag: drop every
whitespace character. -/
def stripWhitespace (s : String) : String :=
  String.mk (s.toList.filter (fun c => !c.isWhitespace))

/-- s.replace(regex of a dot, "") with the global flag: drop every dot. -/
def stripDots (s : String) : String :=
  String.mk (s.toList.filter (fun c => !(c == '.')))

/-- First-occurrence replacement on character lists; JS s.replace(pat, rep)
with a plain string pattern replaces only the first occurrence.  The
patterns used here are nonempty. -/
def replaceFirstList (pat rep : List Char) : List Char → List Char
  | [] => []
  | c :: cs =>
    if listStartsWith (c :: cs) pat then rep ++ (c :: cs).drop pat.length
    else c :: replaceFirstList pat rep cs

/-- s.replace(pat, rep) for a plain (non-regex, nonempty) string pattern. -/
def replaceFirst (s pat rep : String) : String :=
  String.mk (replaceFirstList pat.toList rep.toList s.toList)

/-- onlyDigits from the menu client: strip every non-digit character. -/
def onlyDigits (s : String) : String :=
  String.mk (s.toList.filter Char.isDigit)

/-- Split a character list on a separator character. -/
def splitOnChar (sep : Char) : List Char → List (List Char)
  | [] => [[]]
  | c :: cs =>
    match splitOnChar sep cs with
    | [] => [[c]]
    | g :: gs => if c = sep then [] :: g :: gs else (c :: g) :: gs

/-- Decimal digit run to a Nat. -/
def digitsToNat (l : List Char) : Nat :=
  l.foldl (fun a c => a * 10 + (c.toNat - 48)) 0

/-- Exact value of a decimal literal: num / 10 ^ exp.  Used to model the
JS number produced by Number(cleaned) without floating point. -/
structure DecValue where
  num : Int
  exp : Nat
deriving DecidableEq

/-- Model of the JS Number() conversion restricted to the decimal shapes
the cleaned change-for string can take: the empty string is 0, an optional
sign followed by digits with at most one dot is the denoted decimal value,
and anything else (letters, stray commas, a lone sign or dot) is NaN,
here none.  Hexadecimal and exponent literal forms are not modelled. -/
def jsNumber (s : String) : Option DecValue :=
  let l := s.toList
  if l = [] then some ⟨0, 0⟩
  else
    let sign : Int := match l with
      | '-' :: _ => -1
      | _ => 1
    let body : List Char := match l with
      | '-' :: rest => rest
      | '+' :: rest => rest
      | _ => l
    match splitOnChar '.' body with
    | [intPart] =>
      if intPart ≠ [] ∧ intPart.all Char.isDigit then
        some ⟨sign * (digitsToNat intPart : Int), 0⟩
      else none
    | [intPart, fracPart] =>
      if (intPart ≠ [] ∨ fracPart ≠ []) ∧ intPart.all Char.isDigit ∧
          fracPart.all Char.isDigit then
        some ⟨sign * ((digitsToNat intPart : Int) * 10 ^ fracPart.length +
          (digitsToNat fracPart : Int)), fracPart.length⟩
      else none
    | _ => none

/-- Math.round(val * 100) computed exactly on the decimal value
num / 10 ^ exp: floor(val * 100 + 1/2), as an integer floor division. -/
def roundTimes100 (v : DecValue) : Int :=
  Int.fdiv (v.num * 200 + 10 ^ v.exp) (2 * 10 ^ v.exp)

/-- The cleaning pipeline of parseBRLToCents: drop all whitespace, drop the
first occurrence of the currency marker, drop all dots, and turn the first
comma into a dot. -/
def cleanBRL (raw : String) : String :=
  replaceFirst (stripDots (replaceFirst (stripWhitespace raw) "R$" "")) "," "."

/-- parseBRLToCents from the menu client: trim, reject blank, clean,
convert with Number, round to cents, and reject nonpositive results. -/
def parseBRLToCents (input : String) : Option Int :=
  let raw := jsTrim input
  if raw = "" then none
  else
    match jsNumber (cleanBRL raw) with
    | none => none
    | some v =>
      let cents := roundTimes100 v
      if cents ≤ 0 then none else some cents

/- ===== validation ===== -/

inductive PaymentMethod where
  | PIX
  | CARD_CREDIT
  | CARD_DEBIT
  | CASH
deriving DecidableEq

/-- Validation outcome of validatePayment; the two message strings of the
source (one of them embedding the formatted total) are abstracted into
constructors carrying the data they display. -/
inductive PaymentError where
  | invalidChangeFor
  | changeBelowTotal (totalCents : Nat)
deriving DecidableEq

/-- validateCustomer from the menu client: collect the errors for a blank
name, a phone with fewer than 10 digits, and a blank address, in that
order, as (field, message) pairs. -/
def validateCustomer (name phone address : String) : List (String × String) :=
  (if jsTrim name = "" then [("name", "Nome")] else []) ++
  (if (onlyDigits phone).length < 10 then [("phone", "Telefone válido")] else []) ++
  (if jsTrim address = "" then [("address", "Endereço")] else [])

/-- validatePayment from the menu client: only the CASH method is checked;
a blank change-for string is accepted; the JS falsiness test on the parse
result coincides with the none test because parseBRLToCents never
returns 0. -/
def validatePayment (paymentMethod : PaymentMethod) (cashChangeFor : String)
    (totalCents : Nat) : Option PaymentError :=
  if paymentMethod ≠ PaymentMethod.CASH then none
  else if jsTrim cashChangeFor = "" then none
  else
    match parseBRLToCents cashChangeFor with
    | none => some PaymentError.invalidChangeFor
    | some changeForCents =>
      if changeForCents < (totalCents : Int) then
        some (PaymentError.changeBelowTotal totalCents)
      else none

/- ===== finalizeOrder ===== -/

/-- Restaurant record, from the Restaurant type of the menu client. -/
structure Restaurant where
  id : String
  name : String
  description : Option String
  phone : Option String
  address : Option String
  isOpen : Bool
deriving DecidableEq

/-- The component state finalizeOrder reads. -/
structure FinalizeInput where
  restaurant : Option Restaurant
  cart : Cart
  customerName : String
  customerPhone : String
  customerAddress : String
  paymentMethod : PaymentMethod
  cashChangeFor : String
  isSubmitting : Bool
deriving DecidableEq

structure OrderPayloadItem where
  productId : String
  quantity : Nat
deriving DecidableEq

/-- The create-order request body built by finalizeOrder. -/
structure OrderPayload where
  restaurantId : String
  customerName : String
  customerPhone : String
  customerAddress : String
  paymentMethod : PaymentMethod
  cashChangeForCents : Option Int
  items : List OrderPayloadItem
deriving DecidableEq

/-- Network requests finalizeOrder can issue, in order. -/
inductive Request where
  | getProducts
  | postOrder
deriving DecidableEq

/-- How one run of finalizeOrder ends.  The abort constructors are the
early returns (toast plus return); clearedAbort and keptSomeAbort carry
the cart the run stores before aborting; submitted carries the payload of
the create-order POST. -/
inductive FinalizeResult where
  | abortNotLoaded
  | abortClosed
  | abortEmptyCart
  | abortCustomer (errs : List (String × String))
  | abortPayment (err : PaymentError)
  | abortAlreadySubmitting
  | clearedAbort (newCart : Cart)
  | keptSomeAbort (newCart : Cart)
  | submitted (payload : OrderPayload)
deriving DecidableEq

/-- One arm of the safe-items map of finalizeOrder: a cart line survives
when its product is present and active in the fresh catalog, with the
product data refreshed. -/
def surviving (fresh : List Product) (i : CartItem) : Option CartItem :=
  match lookupFresh fresh i.product.id with
  | none => none
  | some ex => if ex.active = false then none else some ⟨ex, i.qty⟩

/-- The safeItems list of finalizeOrder: map each cart line through the
fresh catalog and keep the survivors (the filter(Boolean) of the source). -/
def safeItemsOf (items : List CartItem) (fresh : List Product) : List CartItem :=
  items.filterMap (surviving fresh)

/-- The replacement cart built from the surviving lines
(safeItems.forEach(s => next[s.product.id] = ...)). -/
def cartOfItems (items : List CartItem) : Cart :=
  items.foldl (fun acc s => cartSet acc s.product.id s) []

/-- The payload object literal of finalizeOrder. -/
def mkPayload (r : Restaurant) (inp : FinalizeInput) (safe : List CartItem) :
    OrderPayload where
  restaurantId := r.id
  customerName := jsTrim inp.customerName
  customerPhone := jsTrim inp.customerPhone
  customerAddress := jsTrim inp.customerAddress
  paymentMethod := inp.paymentMethod
  cashChangeForCents :=
    if inp.paymentMethod = PaymentMethod.CASH then parseBRLToCents inp.cashChangeFor
    else none
  items := safe.map (fun i => ⟨i.product.id, i.qty⟩)

/-- finalizeOrder from the menu client, up to the create-order POST: the
validation gauntlet in source order, then the re-fetch of the catalog
(the getProducts request), the safe-items intersection, and either an
abort (clearing or replacing the cart) or the POST.  fresh is what the
re-fetch returns; the returned list records the network requests issued. -/
def finalizeOrder (inp : FinalizeInput) (fresh : List Product) :
    FinalizeResult × List Request :=
  match inp.restaurant with
  | none => (FinalizeResult.abortNotLoaded, [])
  | some r =>
    if r.isOpen = false then (FinalizeResult.abortClosed, [])
    else if (cartItemsOf inp.cart).length = 0 then (FinalizeResult.abortEmptyCart, [])
    else
      let errs := validateCustomer inp.customerName inp.customerPhone inp.customerAddress
      if 0 < errs.length then (FinalizeResult.abortCustomer errs, [])
      else
        match validatePayment inp.paymentMethod inp.cashChangeFor
            (totalCents (cartItemsOf inp.cart)) with
        | some payError => (FinalizeResult.abortPayment payError, [])
        | none =>
          if inp.isSubmitting = true then (FinalizeResult.abortAlreadySubmitting, [])
          else
            let safe := safeItemsOf (cartItemsOf inp.cart) fresh
            if safe.length = 0 then
              (FinalizeResult.clearedAbort clearCart, [Request.getProducts])
            else if safe.length ≠ (cartItemsOf inp.cart).length then
              (FinalizeResult.keptSomeAbort (cartOfItems safe), [Request.getProducts])
            else
              (FinalizeResult.submitted (mkPayload r inp safe),
               [Request.getProducts, Request.postOrder])

/- ===== postWithRetry ===== -/

/-- Outcome of one fetch inside postWithRetry: an ok response (its body),
a non-ok response (status and body text), or an exception thrown by fetch
(abort or network failure), carrying its message. -/
inductive AttemptResult where
  | ok (body : String)
  | httpErr (status : Nat) (txt : String)
  | exn (msg : String)
deriving DecidableEq

/-- The message of the Error thrown for a non-ok response. -/
def errMsgOfHttp (status : Nat) (txt : String) : String :=
  "Erro (" ++ toString status ++ "): " ++ txt

/-- The isRetryable classification of postWithRetry: a substring test on
the error message. -/
def isRetryableMsg (msg : String) : Bool :=
  strHasSub msg "aborted" || strHasSub msg "AbortError" ||
  strHasSub msg "Network request failed" || strHasSub msg "Failed to fetch"

/-- The error message an attempt outcome produces, none when it succeeded. -/
def attemptError : AttemptResult → Option String
  | AttemptResult.ok _ => none
  | AttemptResult.httpErr st txt => some (errMsgOfHttp st txt)
  | AttemptResult.exn msg => some msg

/-- The attempt loop of postWithRetry: remaining iterations, current
attempt number, and the lastError accumulator.  Returns the thrown error
or the ok body, together with the number of fetch calls performed. -/
def postLoop (oracle : Nat → AttemptResult) :
    Nat → Nat → Option String → Except (Option String) String × Nat
  | 0, _, lastError => (Except.error lastError, 0)
  | n + 1, attempt, _ =>
    match oracle attempt with
    | AttemptResult.ok body => (Except.ok body, 1)
    | AttemptResult.httpErr st txt =>
      let msg := errMsgOfHttp st txt
      if isRetryableMsg msg then
        let r := postLoop oracle n (attempt + 1) (some msg)
        (r.1, r.2 + 1)
      else (Except.error (some msg), 1)
    | AttemptResult.exn msg =>
      if isRetryableMsg msg then
        let r := postLoop oracle n (attempt + 1) (some msg)
        (r.1, r.2 + 1)
      else (Except.error (some msg), 1)

/-- postWithRetry from the menu client: run up to tries attempts from
attempt 1 with no last error yet.  The oracle gives the outcome of the
fetch of each attempt number. -/
def postWithRetry (oracle : Nat → AttemptResult) (tries : Nat) :
    Except (Option String) String × Nat :=
  postLoop oracle tries 1 none

/- ===== order tracking ===== -/

inductive OrderStatus where
  | NEW
  | PREPARING
  | OUT_FOR_DELIVERY
  | DELIVERED
  | CANCELED
deriving DecidableEq

structure TrackRestaurant where
  id : String
  name : String
  phone : Option String
  address : Option String
deriving DecidableEq

structure TrackItem where
  id : String
  quantity : Nat
  unitPriceCents : Nat
  nameSnapshot : String
deriving DecidableEq

/-- The Order record of the tracking page (named TrackedOrder here because
Order is a namespace of the ambient library). -/
structure TrackedOrder where
  id : String
  status : OrderStatus
  totalCents : Nat
  createdAt : String
  restaurant : TrackRestaurant
  items : List TrackItem
deriving DecidableEq

/-- The component state of the tracking page that fetchOrder touches;
timerScheduled is whether a follow-up fetch is pending (timerRef holding a
timeout). -/
structure TrackState where
  order : Option TrackedOrder
  loading : Bool
  error : Option String
  attempt : Nat
  timerScheduled : Bool
deriving DecidableEq

/-- Outcome of one tracking fetch: a 404, another non-ok status, a parsed
order, or a thrown fetch error. -/
inductive TrackFetchResult where
  | notFound
  | httpFailure (status : Nat)
  | success (o : TrackedOrder)
  | netErr (msg : String)
deriving DecidableEq

/-- The terminal-status test of fetchOrder. -/
def terminalStatus (st : OrderStatus) : Bool :=
  st = OrderStatus.DELIVERED || st = OrderStatus.CANCELED

/-- One run of fetchOrder from the tracking page, given the outcome of its
fetch: the 404 branch bumps attempt and reschedules without touching the
error state; a non-ok status or thrown error lands in the catch branch,
which records the error and reschedules; a fetched order is stored and
clears the error, stopping the polling exactly when its status is
terminal (scheduleNext sets timerScheduled, stopPolling clears it). -/
def fetchOrderStep (s : TrackState) (r : TrackFetchResult) : TrackState :=
  match r with
  | TrackFetchResult.notFound =>
    { s with attempt := s.attempt + 1, loading := false, timerScheduled := true }
  | TrackFetchResult.httpFailure status =>
    { s with error := some ("Erro " ++ toString status), loading := false,
             timerScheduled := true }
  | TrackFetchResult.netErr msg =>
    { s with error := some msg, loading := false, timerScheduled := true }
  | TrackFetchResult.success o =>
    let s1 := { s with order := some o, loading := false, error := none }
    if terminalStatus o.status then { s1 with timerScheduled := false }
    else { s1 with timerScheduled := true }

/-- Whether a fetch outcome is an order in a terminal status. -/
def isTerminalResult : TrackFetchResult → Bool
  | TrackFetchResult.success o => terminalStatus o.status
  | _ => false

/-- The polling loop: each element of the list is the outcome of one fetch;
after a fetch, the next one fires only while a timer is scheduled.  Returns
the final state and the number of fetches performed. -/
def runTracking (s : TrackState) : List TrackFetchResult → TrackState × Nat
  | [] => (s, 0)
  | r :: rest =>
    let s1 := fetchOrderStep s r
    if s1.timerScheduled then
      let t := runTracking s1 rest
      (t.1, t.2 + 1)
    else (s1, 1)

/- ===== operation sequences for the cart claims ===== -/

/-- One user action on the cart for the add/remove claims. -/
inductive CartOp where
  | add (p : Product)
  | remove (p : Product)
deriving DecidableEq

def applyCartOp (c : Cart) : CartOp → Cart
  | CartOp.add p => addProduct p c
  | CartOp.remove p => removeProduct p c

/-- Run a sequence of add/remove calls from the empty cart. -/
def runCartOps (ops : List CartOp) : Cart := ops.foldl applyCartOp []

/-- The quantity the cart stores for a product id (0 when absent). -/
def cartQty (c : Cart) (id : String) : Nat :=
  match cartLookup c id with
  | none => 0
  | some it => it.qty

/-- One step of the saturating counter a product id follows: an add of an
active product with that id increments, a remove of a product with that id
decrements with floor at 0, everything else is a no-op. -/
def opCounter (id : String) (n : Nat) : CartOp → Nat
  | CartOp.add p => if p.id = id ∧ p.active = true then n + 1 else n
  | CartOp.remove p => if p.id = id then n - 1 else n

/-- The saturating counter over a whole sequence. -/
def specQty (id : String) (ops : List CartOp) : Nat :=
  ops.foldl (opCounter id) 0

/-- Number of addProduct calls in the sequence for an active product with
the given id. -/
def addCountFor (id : String) (ops : List CartOp) : Nat :=
  (ops.filter (fun op => match op with
    | CartOp.add p => decide (p.id = id ∧ p.active = true)
    | CartOp.remove _ => false)).length

/-- Number of removeProduct calls in the sequence for a product with the
given id. -/
def removeCountFor (id : String) (ops : List CartOp) : Nat :=
  (ops.filter (fun op => match op with
    | CartOp.remove p => decide (p.id = id)
    | CartOp.add _ => false)).length

/-- Relation between a cart and the counter of one id: when the entry is
absent the counter is 0, when present the stored quantity is the (then
positive) counter. -/
def QtyInv (c : Cart) (id : String) (n : Nat) : Prop :=
  match cartLookup c id with
  | none => n = 0
  | some it => it.qty = n ∧ 0 < n

/-- One user or system action on the cart for the total-price claim. -/
inductive CartAction where
  | add (p : Product)
  | remove (p : Product)
  | clear
  | reconcile (fresh : List Product)
deriving DecidableEq

def applyCartAction (c : Cart) : CartAction → Cart
  | CartAction.add p => addProduct p c
  | CartAction.remove p => removeProduct p c
  | CartAction.clear => clearCart
  | CartAction.reconcile fresh => (syncCartWithProducts fresh c).1

/-- Run a sequence of cart actions from the empty cart. -/
def runCartActions (acts : List CartAction) : Cart :=
  acts.foldl applyCartAction []

/- ===== concrete inputs used by witnesses and counterexamples ===== -/

/-- Oracle for the retry witness: the first attempt times out (the fetch
throws the abort error), the second succeeds. -/
def c2oracle : Nat → AttemptResult := fun n =>
  if n = 1 then AttemptResult.exn "AbortError: The operation was aborted."
  else AttemptResult.ok "ok-body"

/-- A terminal (delivered) order for the tracking witness. -/
def c8order : TrackedOrder :=
  ⟨"o1", OrderStatus.DELIVERED, 1000, "t0", ⟨"r1", "Rest", none, none⟩, []⟩

/-- Initial tracking state: nothing loaded, first fetch in flight. -/
def c8state : TrackState := ⟨none, true, none, 1, false⟩

/-- An open restaurant for the validation witness. -/
def c6rest : Restaurant := ⟨"r1", "Resto", none, none, none, true⟩

/-- Component state for the validation witness: everything filled in but
the cart empty. -/
def c6inp : FinalizeInput :=
  ⟨some c6rest, [], "Ana", "(11) 99999-9999", "Rua 1, 10",
   PaymentMethod.PIX, "", false⟩

/-- An active product for the submission witness. -/
def c1prod : Product := ⟨"p1", "Pizza", none, 5000, none, true, "r1"⟩

/-- An open restaurant for the submission witness. -/
def c1rest : Restaurant := ⟨"r1", "Resto", none, none, none, true⟩

/-- Component state for the submission witness: one cart line, all
customer fields valid. -/
def c1inp : FinalizeInput :=
  ⟨some c1rest, [("p1", ⟨c1prod, 2⟩)], "Ana", "(11) 99999-9999",
   "Rua 1, 10", PaymentMethod.PIX, "", false⟩

/-- Fresh catalog for the submission witness, still containing the
product. -/
def c1fresh : List Product := [c1prod]

/-- Product A as first fetched, for the reconciliation witness. -/
def c4prodA : Product := ⟨"A", "Açaí", none, 1500, none, true, "r1"⟩

/-- Product A in the fresh catalog: same id, new price. -/
def c4prodA2 : Product := ⟨"A", "Açaí", none, 1800, none, true, "r1"⟩

/-- Product B, present in the cart but missing from the fresh catalog. -/
def c4prodB : Product := ⟨"B", "Burger", none, 2500, none, true, "r1"⟩

/-- Cart with two lines for the reconciliation witness. -/
def c4cart : Cart := [("A", ⟨c4prodA, 2⟩), ("B", ⟨c4prodB, 1⟩)]

/-- Fresh catalog for the reconciliation witness: B is gone, A has a new
price. -/
def c4fresh : List Product := [c4prodA2]

end Cardapio

/- ===================================================================
   Theorems
   =================================================================== -/

namespace Cardapio

/- ===== cart record lemmas ===== -/

theorem cartLookup_cartSet_self (c : Cart) (id : String) (it : CartItem) :
    cartLookup (cartSet c id it) id = some it := by
  induction c with
  | nil => simp [cartSet, cartLookup]
  | cons e rest ih =>
    by_cases h : e.1 = id <;> simp [cartSet, cartLookup, h, ih]

theorem cartLookup_cartSet_ne (c : Cart) (id' id : String) (it : CartItem)
    (h : id' ≠ id) : cartLookup (cartSet c id' it) id = cartLookup c id := by
  induction c with
  | nil => simp [cartSet, cartLookup, h]
  | cons e rest ih =>
    by_cases he : e.1 = id' <;> simp [cartSet, cartLookup, he, h, ih]

theorem cartLookup_cartErase_self (c : Cart) (id : String) :
    cartLookup (cartErase c id) id = none := by
  induction c with
  | nil => simp [cartErase, cartLookup]
  | cons e rest ih =>
    by_cases h : e.1 = id <;> simp [cartErase, cartLookup, h, ih]

theorem cartLookup_cartErase_ne (c : Cart) (id' id : String)
    (h : id' ≠ id) : cartLookup (cartErase c id') id = cartLookup c id := by
  induction c with
  | nil => simp [cartErase, cartLookup]
  | cons e rest ih =>
    by_cases he : e.1 = id'
    · simp [cartErase, cartLookup, he, h, ih]
    · by_cases hi : e.1 = id <;>
        simp [cartErase, cartLookup, he, hi, Ne.symm h, ih]

/- ===== C3: add/remove quantity law ===== -/

theorem qtyInv_empty (id : String) : QtyInv [] id 0 := by
  simp [QtyInv, cartLookup]

theorem addProduct_inactive (p : Product) (c : Cart) (hact : p.active = false) :
    addProduct p c = c := by
  simp [addProduct, hact]

theorem addProduct_eq_set (p : Product) (c : Cart) (hact : p.active = true) :
    addProduct p c = cartSet c p.id ⟨p, cartQty c p.id + 1⟩ := by
  simp only [addProduct, hact, Bool.true_eq_false, if_false]
  rfl

theorem removeProduct_absent (p : Product) (c : Cart)
    (h : cartLookup c p.id = none) : removeProduct p c = c := by
  simp [removeProduct, h]

theorem removeProduct_low (p : Product) (c : Cart) (ex : CartItem)
    (h : cartLookup c p.id = some ex) (hq : ex.qty ≤ 1) :
    removeProduct p c = cartErase c p.id := by
  simp only [removeProduct, h]
  rw [if_pos (by omega)]

theorem removeProduct_high (p : Product) (c : Cart) (ex : CartItem)
    (h : cartLookup c p.id = some ex) (hq : 2 ≤ ex.qty) :
    removeProduct p c = cartSet c p.id ⟨p, ex.qty - 1⟩ := by
  simp only [removeProduct, h]
  rw [if_neg (by omega)]

theorem qtyInv_cartQty (c : Cart) (id : String) (n : Nat) (h : QtyInv c id n) :
    cartQty c id = n := by
  unfold QtyInv at h
  unfold cartQty
  cases hc : cartLookup c id with
  | none => rw [hc] at h; simpa using h.symm
  | some it => rw [hc] at h; simpa using h.1

theorem qtyInv_applyCartOp (c : Cart) (id : String) (n : Nat) (op : CartOp)
    (h : QtyInv c id n) : QtyInv (applyCartOp c op) id (opCounter id n op) := by
  cases op with
  | add p =>
    cases hact : p.active with
    | false =>
      show QtyInv (addProduct p c) id _
      rw [addProduct_inactive p c hact]
      simpa [opCounter, hact] using h
    | true =>
      show QtyInv (addProduct p c) id _
      rw [addProduct_eq_set p c hact]
      by_cases hid : p.id = id
      · subst hid
        have hq := qtyInv_cartQty c p.id n h
        unfold QtyInv
        rw [cartLookup_cartSet_self, hq]
        simp [opCounter, hact]
      · unfold QtyInv
        rw [cartLookup_cartSet_ne _ _ _ _ hid]
        simpa [opCounter, hid] using h
  | remove p =>
    show QtyInv (removeProduct p c) id _
    cases hc : cartLookup c p.id with
    | none =>
      rw [removeProduct_absent p c hc]
      by_cases hid : p.id = id
      · subst hid
        have : n = 0 := by unfold QtyInv at h; rw [hc] at h; exact h
        simpa [opCounter, this] using h
      · simpa [opCounter, hid] using h
    | some ex =>
      by_cases hq : ex.qty ≤ 1
      · rw [removeProduct_low p c ex hc hq]
        by_cases hid : p.id = id
        · subst hid
          have hx : ex.qty = n ∧ 0 < n := by
            unfold QtyInv at h; rw [hc] at h; exact h
          unfold QtyInv
          rw [cartLookup_cartErase_self]
          simp [opCounter]
          omega
        · unfold QtyInv
          rw [cartLookup_cartErase_ne _ _ _ hid]
          simpa [opCounter, hid] using h
      · rw [removeProduct_high p c ex hc (by omega)]
        by_cases hid : p.id = id
        · subst hid
          have hx : ex.qty = n ∧ 0 < n := by
            unfold QtyInv at h; rw [hc] at h; exact h
          unfold QtyInv
          rw [cartLookup_cartSet_self]
          simp [opCounter]
          omega
        · unfold QtyInv
          rw [cartLookup_cartSet_ne _ _ _ _ hid]
          simpa [opCounter, hid] using h

theorem qtyInv_foldl (id : String) (ops : List CartOp) :
    ∀ (c : Cart) (n : Nat), QtyInv c id n →
      QtyInv (ops.foldl applyCartOp c) id (ops.foldl (opCounter id) n) := by
  induction ops with
  | nil => intro c n h; exact h
  | cons op rest ih =>
    intro c n h
    exact ih _ _ (qtyInv_applyCartOp c id n op h)

theorem addCountFor_append (id : String) (l₁ l₂ : List CartOp) :
    addCountFor id (l₁ ++ l₂) = addCountFor id l₁ + addCountFor id l₂ := by
  simp [addCountFor, List.filter_append]

theorem removeCountFor_append (id : String) (l₁ l₂ : List CartOp) :
    removeCountFor id (l₁ ++ l₂) = removeCountFor id l₁ + removeCountFor id l₂ := by
  simp [removeCountFor, List.filter_append]

theorem specQty_append_single (id : String) (l : List CartOp) (op : CartOp) :
    specQty id (l ++ [op]) = opCounter id (specQty id l) op := by
  simp [specQty, List.foldl_append]

theorem addCountFor_single_add (id : String) (p : Product) :
    addCountFor id [CartOp.add p] =
      if p.id = id ∧ p.active = true then 1 else 0 := by
  by_cases hcond : p.id = id ∧ p.active = true <;>
    simp [addCountFor, hcond]

theorem addCountFor_single_remove (id : String) (p : Product) :
    addCountFor id [CartOp.remove p] = 0 := by
  simp [addCountFor]

theorem removeCountFor_single_add (id : String) (p : Product) :
    removeCountFor id [CartOp.add p] = 0 := by
  simp [removeCountFor]

theorem removeCountFor_single_remove (id : String) (p : Product) :
    removeCountFor id [CartOp.remove p] = if p.id = id then 1 else 0 := by
  by_cases hcond : p.id = id <;> simp [removeCountFor, hcond]

theorem specQty_eq_sub (id : String) (ops : List CartOp)
    (H : ∀ l₁ l₂, ops = l₁ ++ l₂ → removeCountFor id l₁ ≤ addCountFor id l₁) :
    specQty id ops = addCountFor id ops - removeCountFor id ops := by
  induction ops using List.reverseRecOn with
  | nil => simp [specQty, addCountFor, removeCountFor]
  | append_singleton l op ih =>
    have H' : ∀ l₁ l₂, l = l₁ ++ l₂ → removeCountFor id l₁ ≤ addCountFor id l₁ := by
      intro l₁ l₂ hsplit
      exact H l₁ (l₂ ++ [op]) (by rw [hsplit, List.append_assoc])
    have hih := ih H'
    have hbase : removeCountFor id l ≤ addCountFor id l := H' l [] (by simp)
    rw [specQty_append_single, addCountFor_append, removeCountFor_append]
    cases op with
    | add p =>
      rw [addCountFor_single_add, removeCountFor_single_add]
      by_cases hcond : p.id = id ∧ p.active = true
      · rw [if_pos hcond]
        simp only [opCounter, if_pos hcond]
        omega
      · rw [if_neg hcond]
        simp only [opCounter, if_neg hcond]
        omega
    | remove p =>
      rw [addCountFor_single_remove, removeCountFor_single_remove]
      by_cases hcond : p.id = id
      · have hfull : removeCountFor id (l ++ [CartOp.remove p]) ≤
            addCountFor id (l ++ [CartOp.remove p]) :=
          H (l ++ [CartOp.remove p]) [] (by simp)
        rw [addCountFor_append, removeCountFor_append, addCountFor_single_remove,
          removeCountFor_single_remove, if_pos hcond] at hfull
        rw [if_pos hcond]
        simp only [opCounter, if_pos hcond]
        omega
      · rw [if_neg hcond]
        simp only [opCounter, if_neg hcond]
        omega

/-- Cart, product and call sequence exhibiting that the adds-minus-removes
formula of claim C3 fails: add, remove, remove, add on one active
product. -/
def c3prod : Product :=
  ⟨"A", "Item A", none, 100, none, true, "R1"⟩

def c3ops : List CartOp :=
  [CartOp.add c3prod, CartOp.remove c3prod, CartOp.remove c3prod,
   CartOp.add c3prod]

/-- C3 is false as stated: after add, remove, remove, add of one active
product, the stored quantity is 1 and the entry is present, while the
number of adds minus the number of removes, floored at 0, is 0. -/
theorem C3_counterexample :
    cartQty (runCartOps c3ops) c3prod.id = 1
    ∧ addCountFor c3prod.id c3ops - removeCountFor c3prod.id c3ops = 0
    ∧ cartQty (runCartOps c3ops) c3prod.id ≠
        addCountFor c3prod.id c3ops - removeCountFor c3prod.id c3ops
    ∧ cartLookup (runCartOps c3ops) c3prod.id ≠ none := by
  refine ⟨by decide, by decide, by decide, by decide⟩

/-- C3 (amended): for every product id and every finite sequence of
addProduct/removeProduct calls from the empty cart, the stored quantity
is the running saturating counter (each add of an active product with
that id increments it, each remove of a product with that id decrements
it with floor at 0), and the entry is absent exactly when that counter
is 0; an addProduct call on an inactive product leaves the cart
unchanged; and the adds-minus-removes formula of the original claim does
hold for every sequence in which no prefix contains more removes than
(active) adds of the id. -/
theorem C3_cart_quantity (ops : List CartOp) (id : String) :
    cartQty (runCartOps ops) id = specQty id ops
    ∧ (cartLookup (runCartOps ops) id = none ↔ specQty id ops = 0)
    ∧ (∀ p : Product, p.active = false → ∀ c : Cart, addProduct p c = c)
    ∧ ((∀ l₁ l₂, ops = l₁ ++ l₂ → removeCountFor id l₁ ≤ addCountFor id l₁) →
        specQty id ops = addCountFor id ops - removeCountFor id ops) := by
  have hinv := qtyInv_foldl id ops [] 0 (qtyInv_empty id)
  rw [show ops.foldl applyCartOp [] = runCartOps ops from rfl] at hinv
  rw [show ops.foldl (opCounter id) 0 = specQty id ops from rfl] at hinv
  simp only [QtyInv] at hinv
  refine ⟨?_, ⟨?_, ?_⟩, ?_, specQty_eq_sub id ops⟩
  · cases hc : cartLookup (runCartOps ops) id with
    | none => rw [hc] at hinv; simp [cartQty, hc, hinv]
    | some it => rw [hc] at hinv; simp [cartQty, hc, hinv.1]
  · intro hnone; rw [hnone] at hinv; exact hinv
  · intro hzero
    cases hc : cartLookup (runCartOps ops) id with
    | none => rfl
    | some it => rw [hc] at hinv; omega
  · intro p hp c
    simp [addProduct, hp]

/-- Concrete instance of the amended C3: an inactive product is not added. -/
theorem C3_cart_quantity_witness :
    addProduct ⟨"Z", "Off", none, 300, none, false, "R1"⟩ [] = [] :=
  (C3_cart_quantity [] "Z").2.2.1 ⟨"Z", "Off", none, 300, none, false, "R1"⟩ rfl []

/- ===== C5: total is the recomputed sum ===== -/

theorem totalCents_foldl_aux (items : List CartItem) :
    ∀ n : Nat,
      items.foldl (fun acc item => acc + item.product.priceCents * item.qty) n =
        n + (items.map (fun i => i.product.priceCents * i.qty)).sum := by
  induction items with
  | nil => intro n; simp
  | cons i rest ih =>
    intro n
    simp only [List.foldl_cons, List.map_cons, List.sum_cons, ih]
    omega

theorem totalCents_eq_entriesTotal (c : Cart) :
    totalCents (cartItemsOf c) = entriesTotal c := by
  unfold totalCents entriesTotal cartItemsOf
  rw [totalCents_foldl_aux]
  simp only [Nat.zero_add, List.map_map]
  rfl

/-- C5: in every cart state reachable by any interleaving of add, remove,
clear and reconcile operations from the empty cart, the displayed total
(totalCents over the cartItems values) equals the sum over the cart
entries of priceCents times qty, recomputed from the entries. -/
theorem C5_total_is_recomputed_sum (acts : List CartAction) :
    totalCents (cartItemsOf (runCartActions acts)) =
      entriesTotal (runCartActions acts) :=
  totalCents_eq_entriesTotal (runCartActions acts)

/- ===== C9: 404 on the tracking page ===== -/

/-- C9: a tracking fetch that returns 404 never touches the error state,
always schedules another poll, and leaves the loaded order unchanged
(only bumping the attempt counter and clearing the loading flag). -/
theorem C9_notFound_is_not_an_error (s : TrackState) :
    (fetchOrderStep s TrackFetchResult.notFound).error = s.error
    ∧ (fetchOrderStep s TrackFetchResult.notFound).timerScheduled = true
    ∧ (fetchOrderStep s TrackFetchResult.notFound).order = s.order
    ∧ (fetchOrderStep s TrackFetchResult.notFound).attempt = s.attempt + 1 :=
  ⟨rfl, rfl, rfl, rfl⟩

end Cardapio

namespace Cardapio

/- ===== C10: parseBRLToCents totality and positivity ===== -/

/-- C10: parseBRLToCents is total and returns none or a strictly positive
cent amount; blank input, input whose cleaned form is not a number, and
input whose value rounds to zero or fewer cents all give none; in
particular the string "0" gives none, so as a cash change-for amount it
is rejected as invalid by validatePayment rather than accepted. -/
theorem C10_parse_none_or_positive (input : String) :
    (parseBRLToCents input = none ∨
      ∃ c, parseBRLToCents input = some c ∧ 0 < c)
    ∧ (jsTrim input = "" → parseBRLToCents input = none)
    ∧ (jsNumber (cleanBRL (jsTrim input)) = none → parseBRLToCents input = none)
    ∧ (∀ v, jsNumber (cleanBRL (jsTrim input)) = some v →
        roundTimes100 v ≤ 0 → parseBRLToCents input = none)
    ∧ parseBRLToCents "0" = none
    ∧ (∀ total : Nat, validatePayment PaymentMethod.CASH "0" total =
        some PaymentError.invalidChangeFor) := by
  refine ⟨?_, ?_, ?_, ?_, by decide, ?_⟩
  · unfold parseBRLToCents
    by_cases hb : jsTrim input = ""
    · simp [hb]
    · simp only [hb, if_false]
      cases hn : jsNumber (cleanBRL (jsTrim input)) with
      | none => simp
      | some v =>
        by_cases hc : roundTimes100 v ≤ 0
        · simp [hc]
        · exact Or.inr ⟨roundTimes100 v, by simp [hc], by omega⟩
  · intro hb
    unfold parseBRLToCents
    simp [hb]
  · intro hn
    unfold parseBRLToCents
    by_cases hb : jsTrim input = ""
    · simp [hb]
    · simp [hb, hn]
  · intro v hv hr
    unfold parseBRLToCents
    by_cases hb : jsTrim input = ""
    · simp [hb]
    · simp [hb, hv, hr]
  · intro total
    show validatePayment PaymentMethod.CASH "0" total =
      some PaymentError.invalidChangeFor
    unfold validatePayment
    rw [if_neg (by decide), if_neg (by decide)]
    rw [show parseBRLToCents "0" = none from by decide]

/-- Concrete instance of C10: a non-numeric change-for string parses to
none. -/
theorem C10_parse_none_or_positive_witness : parseBRLToCents "abc" = none :=
  (C10_parse_none_or_positive "abc").2.2.1 (by decide)

/- ===== C7: cash change-for validation ===== -/

/-- C7: with the CASH method and a non-blank change-for string,
validatePayment rejects exactly when the string does not parse to a
(positive) cent amount or the parsed amount is strictly below the cart
total, and an amount exactly equal to the total is accepted. -/
theorem C7_cash_change_validation (pm : PaymentMethod) (chg : String)
    (total : Nat) (hpm : pm = PaymentMethod.CASH) (hblank : jsTrim chg ≠ "") :
    (validatePayment pm chg total ≠ none ↔
      parseBRLToCents chg = none ∨
        ∃ c, parseBRLToCents chg = some c ∧ c < (total : Int))
    ∧ (parseBRLToCents chg = some (total : Int) →
        validatePayment pm chg total = none) := by
  subst hpm
  unfold validatePayment
  rw [if_neg (by simp), if_neg hblank]
  cases hp : parseBRLToCents chg with
  | none => simp
  | some c =>
    by_cases hlt : c < (total : Int)
    · refine ⟨by simp [hlt], ?_⟩
      intro h
      have hc : c = (total : Int) := by injection h
      rw [hc] at hlt
      exact absurd hlt (lt_irrefl _)
    · refine ⟨by simp [hlt], fun _ => by simp [hlt]⟩

/-- Concrete instance of C7: a change-for amount exactly equal to the cart
total is accepted. -/
theorem C7_cash_change_validation_witness :
    validatePayment PaymentMethod.CASH "50,00" 5000 = none :=
  (C7_cash_change_validation PaymentMethod.CASH "50,00" 5000 rfl
    (by decide)).2 (by decide)

/- ===== C2: postWithRetry ===== -/

theorem postLoop_count_le (oracle : Nat → AttemptResult) :
    ∀ (n attempt : Nat) (le : Option String),
      (postLoop oracle n attempt le).2 ≤ n := by
  intro n
  induction n with
  | zero => intro attempt le; simp [postLoop]
  | succ k ih =>
    intro attempt le
    simp only [postLoop]
    cases oracle attempt with
    | ok body => simp
    | httpErr st txt =>
      by_cases hr : isRetryableMsg (errMsgOfHttp st txt) = true
      · simp only [hr, if_true]
        have := ih (attempt + 1) (some (errMsgOfHttp st txt))
        omega
      · have hr' : isRetryableMsg (errMsgOfHttp st txt) = false :=
          Bool.eq_false_iff.mpr hr
        simp only [hr', Bool.false_eq_true, if_false]
        omega
    | exn msg =>
      by_cases hr : isRetryableMsg msg = true
      · simp only [hr, if_true]
        have := ih (attempt + 1) (some msg)
        omega
      · have hr' : isRetryableMsg msg = false := Bool.eq_false_iff.mpr hr
        simp only [hr', Bool.false_eq_true, if_false]
        omega

/-- C2 is false as stated: a first attempt that is a non-ok HTTP response
(status 500) — not a client-side abort, timeout, or network failure — is
nonetheless retried when the response body text contains one of the
transient markers, here "aborted", so both attempts run (2 network calls)
for a non-transient failure. -/
theorem C2_counterexample :
    postWithRetry (fun _ => AttemptResult.httpErr 500 "aborted") 2 =
      (Except.error (some "Erro (500): aborted"), 2)
    ∧ isRetryableMsg (errMsgOfHttp 500 "aborted") = true :=
  ⟨rfl, rfl⟩

/-- C2 (amended): postWithRetry with 2 tries makes at most 2 fetch calls;
a first successful attempt returns after 1 call; a second attempt occurs
exactly when the message of the first failure contains one of the
transient markers (aborted, AbortError, Network request failed, Failed to
fetch) — which covers client-side abort/timeout and network failures, but
also a non-ok HTTP response whose composed error text contains a marker —
otherwise the first error is thrown after 1 call; after a retried first
failure, a successful second attempt returns its response with exactly 2
calls, and a failed second attempt throws the last (second) error with
exactly 2 calls. -/
theorem C2_retry_classification (oracle : Nat → AttemptResult) :
    (postWithRetry oracle 2).2 ≤ 2
    ∧ (∀ body, oracle 1 = AttemptResult.ok body →
        postWithRetry oracle 2 = (Except.ok body, 1))
    ∧ (∀ e, attemptError (oracle 1) = some e → isRetryableMsg e = false →
        postWithRetry oracle 2 = (Except.error (some e), 1))
    ∧ (∀ e body, attemptError (oracle 1) = some e → isRetryableMsg e = true →
        oracle 2 = AttemptResult.ok body →
        postWithRetry oracle 2 = (Except.ok body, 2))
    ∧ (∀ e e₂, attemptError (oracle 1) = some e → isRetryableMsg e = true →
        attemptError (oracle 2) = some e₂ →
        postWithRetry oracle 2 = (Except.error (some e₂), 2)) := by
  refine ⟨postLoop_count_le oracle 2 1 none, ?_, ?_, ?_, ?_⟩
  · intro body h1
    simp [postWithRetry, postLoop, h1]
  · intro e h1 hr
    cases ho : oracle 1 with
    | ok body => rw [ho] at h1; simp [attemptError] at h1
    | httpErr st txt =>
      rw [ho] at h1
      simp only [attemptError, Option.some.injEq] at h1
      subst h1
      simp [postWithRetry, postLoop, ho, hr]
    | exn msg =>
      rw [ho] at h1
      simp only [attemptError, Option.some.injEq] at h1
      subst h1
      simp [postWithRetry, postLoop, ho, hr]
  · intro e body h1 hr h2
    cases ho : oracle 1 with
    | ok b => rw [ho] at h1; simp [attemptError] at h1
    | httpErr st txt =>
      rw [ho] at h1
      simp only [attemptError, Option.some.injEq] at h1
      subst h1
      simp [postWithRetry, postLoop, ho, hr, h2]
    | exn msg =>
      rw [ho] at h1
      simp only [attemptError, Option.some.injEq] at h1
      subst h1
      simp [postWithRetry, postLoop, ho, hr, h2]
  · intro e e₂ h1 hr h2
    cases ho : oracle 1 with
    | ok b => rw [ho] at h1; simp [attemptError] at h1
    | httpErr st txt =>
      rw [ho] at h1
      simp only [attemptError, Option.some.injEq] at h1
      subst h1
      cases ho2 : oracle 2 with
      | ok b => rw [ho2] at h2; simp [attemptError] at h2
      | httpErr st₂ txt₂ =>
        rw [ho2] at h2
        simp only [attemptError, Option.some.injEq] at h2
        subst h2
        by_cases hr2 : isRetryableMsg (errMsgOfHttp st₂ txt₂) <;>
          simp [postWithRetry, postLoop, ho, hr, ho2, hr2]
      | exn msg₂ =>
        rw [ho2] at h2
        simp only [attemptError, Option.some.injEq] at h2
        subst h2
        by_cases hr2 : isRetryableMsg msg₂ <;>
          simp [postWithRetry, postLoop, ho, hr, ho2, hr2]
    | exn msg =>
      rw [ho] at h1
      simp only [attemptError, Option.some.injEq] at h1
      subst h1
      cases ho2 : oracle 2 with
      | ok b => rw [ho2] at h2; simp [attemptError] at h2
      | httpErr st₂ txt₂ =>
        rw [ho2] at h2
        simp only [attemptError, Option.some.injEq] at h2
        subst h2
        by_cases hr2 : isRetryableMsg (errMsgOfHttp st₂ txt₂) <;>
          simp [postWithRetry, postLoop, ho, hr, ho2, hr2]
      | exn msg₂ =>
        rw [ho2] at h2
        simp only [attemptError, Option.some.injEq] at h2
        subst h2
        by_cases hr2 : isRetryableMsg msg₂ <;>
          simp [postWithRetry, postLoop, ho, hr, ho2, hr2]

/-- Concrete instance of the amended C2: a first attempt that times out
(abort error) followed by a successful second attempt makes exactly 2
network calls and returns the successful response. -/
theorem C2_retry_classification_witness :
    postWithRetry c2oracle 2 = (Except.ok "ok-body", 2) :=
  (C2_retry_classification c2oracle).2.2.2.1
    "AbortError: The operation was aborted." "ok-body" rfl (by decide) rfl

/- ===== C8: terminal status stops polling ===== -/

theorem terminal_not_scheduled (s : TrackState) (o : TrackedOrder)
    (h : terminalStatus o.status = true) :
    (fetchOrderStep s (TrackFetchResult.success o)).timerScheduled = false := by
  simp [fetchOrderStep, h]

theorem nonterminal_schedules (s : TrackState) (r : TrackFetchResult)
    (h : isTerminalResult r = false) :
    (fetchOrderStep s r).timerScheduled = true := by
  cases r with
  | notFound => rfl
  | httpFailure st => rfl
  | netErr m => rfl
  | success o =>
    simp only [isTerminalResult] at h
    simp [fetchOrderStep, h]

theorem runTracking_terminal_count (o : TrackedOrder)
    (post : List TrackFetchResult) (hterm : terminalStatus o.status = true) :
    ∀ (pre : List TrackFetchResult) (s : TrackState),
      (∀ r ∈ pre, isTerminalResult r = false) →
      (runTracking s (pre ++ TrackFetchResult.success o :: post)).2 =
        pre.length + 1 := by
  intro pre
  induction pre with
  | nil =>
    intro s _
    simp only [List.nil_append, runTracking, List.length_nil]
    rw [terminal_not_scheduled s o hterm, if_neg Bool.false_ne_true]
  | cons r rest ih =>
    intro s hpre
    have hr : isTerminalResult r = false := hpre r (by simp)
    have hrest : ∀ x ∈ rest, isTerminalResult x = false := fun x hx =>
      hpre x (by simp [hx])
    simp only [List.cons_append, runTracking, List.length_cons]
    rw [nonterminal_schedules s r hr, if_pos rfl]
    show (runTracking (fetchOrderStep s r)
      (rest ++ TrackFetchResult.success o :: post)).2 + 1 = rest.length + 1 + 1
    rw [ih (fetchOrderStep s r) hrest]

/-- C8: a fetched order with a terminal status (DELIVERED or CANCELED)
leaves no timer scheduled, and in a polling run whose earlier fetches were
all non-terminal, the run performs exactly the fetches up to and including
the terminal response: nothing after it. -/
theorem C8_terminal_stops_polling :
    (∀ (s : TrackState) (o : TrackedOrder), terminalStatus o.status = true →
      (fetchOrderStep s (TrackFetchResult.success o)).timerScheduled = false)
    ∧ ∀ (s : TrackState) (pre post : List TrackFetchResult) (o : TrackedOrder),
        terminalStatus o.status = true →
        (∀ r ∈ pre, isTerminalResult r = false) →
        (runTracking s (pre ++ TrackFetchResult.success o :: post)).2 =
          pre.length + 1 := by
  refine ⟨terminal_not_scheduled, ?_⟩
  intro s pre post o hterm hpre
  exact runTracking_terminal_count o post hterm pre s hpre

/-- Concrete instance of C8: one 404, then a DELIVERED response, with two
more results available: exactly 2 fetches happen. -/
theorem C8_terminal_stops_polling_witness :
    (runTracking c8state
      ([TrackFetchResult.notFound] ++ TrackFetchResult.success c8order ::
        [TrackFetchResult.notFound, TrackFetchResult.notFound])).2 = 2 :=
  C8_terminal_stops_polling.2 c8state [TrackFetchResult.notFound]
    [TrackFetchResult.notFound, TrackFetchResult.notFound] c8order rfl
    (by decide)

end Cardapio

namespace Cardapio

/- ===== C6: validation order in finalizeOrder ===== -/

/-- C6: finalizeOrder validates, in order, that the restaurant is loaded,
that it is open, that the cart is non-empty, that the customer fields are
valid (name non-blank, at least 10 phone digits, address non-blank — the
stated characterisation of validateCustomer succeeding), and that the
cash change-for amount is valid; the first failing check aborts the run
with its specific failure and an empty request list, so no network call
is made — in particular for an empty cart or an invalid phone. -/
theorem C6_validation_gauntlet (inp : FinalizeInput) (fresh : List Product) :
    (inp.restaurant = none →
      finalizeOrder inp fresh = (FinalizeResult.abortNotLoaded, []))
    ∧ (∀ r, inp.restaurant = some r → r.isOpen = false →
        finalizeOrder inp fresh = (FinalizeResult.abortClosed, []))
    ∧ (∀ r, inp.restaurant = some r → r.isOpen = true →
        cartItemsOf inp.cart = [] →
        finalizeOrder inp fresh = (FinalizeResult.abortEmptyCart, []))
    ∧ (∀ r, inp.restaurant = some r → r.isOpen = true →
        cartItemsOf inp.cart ≠ [] →
        validateCustomer inp.customerName inp.customerPhone inp.customerAddress ≠ [] →
        finalizeOrder inp fresh =
          (FinalizeResult.abortCustomer
            (validateCustomer inp.customerName inp.customerPhone
              inp.customerAddress), []))
    ∧ (∀ r err, inp.restaurant = some r → r.isOpen = true →
        cartItemsOf inp.cart ≠ [] →
        validateCustomer inp.customerName inp.customerPhone inp.customerAddress = [] →
        validatePayment inp.paymentMethod inp.cashChangeFor
          (totalCents (cartItemsOf inp.cart)) = some err →
        finalizeOrder inp fresh = (FinalizeResult.abortPayment err, []))
    ∧ (validateCustomer inp.customerName inp.customerPhone inp.customerAddress = [] ↔
        jsTrim inp.customerName ≠ "" ∧
          10 ≤ (onlyDigits inp.customerPhone).length ∧
          jsTrim inp.customerAddress ≠ "") := by
  refine ⟨?_, ?_, ?_, ?_, ?_, ?_⟩
  · intro h
    simp [finalizeOrder, h]
  · intro r hr hcl
    simp [finalizeOrder, hr, hcl]
  · intro r hr hop hemp
    simp [finalizeOrder, hr, hop, hemp]
  · intro r hr hop hne hcust
    simp [finalizeOrder, hr, hop, hne, hcust]
  · intro r err hr hop hne hcust hpay
    simp [finalizeOrder, hr, hop, hne, hcust, hpay]
  · by_cases h1 : jsTrim inp.customerName = "" <;>
      by_cases h2 : (onlyDigits inp.customerPhone).length < 10 <;>
      by_cases h3 : jsTrim inp.customerAddress = "" <;>
      simp [validateCustomer, h1, h2, h3] <;> omega

/-- Concrete instance of C6: an open restaurant but an empty cart is
rejected with the cart-empty failure and no network request. -/
theorem C6_validation_gauntlet_witness :
    finalizeOrder c6inp [] = (FinalizeResult.abortEmptyCart, []) :=
  (C6_validation_gauntlet c6inp []).2.2.1 c6rest rfl rfl rfl

/- ===== C1: the safe-items gate before the create-order POST ===== -/

theorem length_filterMap_eq_iff {α β : Type} (f : α → Option β) (l : List α) :
    (l.filterMap f).length = l.length ↔ ∀ a ∈ l, (f a).isSome = true := by
  induction l with
  | nil => simp
  | cons a l ih =>
    cases hf : f a with
    | none =>
      simp only [List.filterMap_cons, hf, List.length_cons]
      constructor
      · intro h
        have hle := List.length_filterMap_le f l
        exact absurd h (by omega)
      · intro h
        have ha := h a (List.mem_cons_self a l)
        rw [hf] at ha
        simp at ha
    | some b =>
      simp only [List.filterMap_cons, hf, List.length_cons]
      constructor
      · intro h x hx
        rcases List.mem_cons.mp hx with hxa | hxl
        · rw [hxa, hf]; rfl
        · exact ih.mp (by omega) x hxl
      · intro h
        have := ih.mpr (fun x hx => h x (List.mem_cons_of_mem a hx))
        omega

/-- C1: once every validation has passed, finalizeOrder intersects the
cart lines with the re-fetched catalog: zero survivors clears the cart
and aborts with only the catalog request issued; a proper subset of
survivors replaces the cart with exactly them and aborts, again with no
create-order request; only when every line survives is the create-order
POST issued; and surviving all is equivalent to every cart line having
its product present and active in the fresh catalog. -/
theorem C1_safe_items_gate (inp : FinalizeInput) (fresh : List Product)
    (r : Restaurant) (hr : inp.restaurant = some r) (hopen : r.isOpen = true)
    (hne : cartItemsOf inp.cart ≠ [])
    (hcust : validateCustomer inp.customerName inp.customerPhone
      inp.customerAddress = [])
    (hpay : validatePayment inp.paymentMethod inp.cashChangeFor
      (totalCents (cartItemsOf inp.cart)) = none)
    (hsub : inp.isSubmitting = false) :
    (safeItemsOf (cartItemsOf inp.cart) fresh = [] →
      finalizeOrder inp fresh =
        (FinalizeResult.clearedAbort clearCart, [Request.getProducts]))
    ∧ (safeItemsOf (cartItemsOf inp.cart) fresh ≠ [] →
        (safeItemsOf (cartItemsOf inp.cart) fresh).length ≠
          (cartItemsOf inp.cart).length →
        finalizeOrder inp fresh =
          (FinalizeResult.keptSomeAbort
            (cartOfItems (safeItemsOf (cartItemsOf inp.cart) fresh)),
           [Request.getProducts]))
    ∧ ((safeItemsOf (cartItemsOf inp.cart) fresh).length =
          (cartItemsOf inp.cart).length →
        finalizeOrder inp fresh =
          (FinalizeResult.submitted
            (mkPayload r inp (safeItemsOf (cartItemsOf inp.cart) fresh)),
           [Request.getProducts, Request.postOrder]))
    ∧ (Request.postOrder ∈ (finalizeOrder inp fresh).2 ↔
        (safeItemsOf (cartItemsOf inp.cart) fresh).length =
          (cartItemsOf inp.cart).length)
    ∧ ((safeItemsOf (cartItemsOf inp.cart) fresh).length =
          (cartItemsOf inp.cart).length ↔
        ∀ i ∈ cartItemsOf inp.cart, (surviving fresh i).isSome = true)
    ∧ (safeItemsOf (cartItemsOf inp.cart) fresh = [] ↔
        ∀ i ∈ cartItemsOf inp.cart, surviving fresh i = none) := by
  have hzero : safeItemsOf (cartItemsOf inp.cart) fresh = [] →
      finalizeOrder inp fresh =
        (FinalizeResult.clearedAbort clearCart, [Request.getProducts]) := by
    intro hsafe
    simp [finalizeOrder, hr, hopen, hne, hcust, hpay, hsub, hsafe]
  have hkept : safeItemsOf (cartItemsOf inp.cart) fresh ≠ [] →
      (safeItemsOf (cartItemsOf inp.cart) fresh).length ≠
        (cartItemsOf inp.cart).length →
      finalizeOrder inp fresh =
        (FinalizeResult.keptSomeAbort
          (cartOfItems (safeItemsOf (cartItemsOf inp.cart) fresh)),
         [Request.getProducts]) := by
    intro hsafene hlen
    simp [finalizeOrder, hr, hopen, hne, hcust, hpay, hsub, hsafene, hlen]
  have hsubmit : (safeItemsOf (cartItemsOf inp.cart) fresh).length =
        (cartItemsOf inp.cart).length →
      finalizeOrder inp fresh =
        (FinalizeResult.submitted
          (mkPayload r inp (safeItemsOf (cartItemsOf inp.cart) fresh)),
         [Request.getProducts, Request.postOrder]) := by
    intro hlen
    have h0 : safeItemsOf (cartItemsOf inp.cart) fresh ≠ [] := by
      intro hnil
      rw [hnil] at hlen
      exact hne (List.length_eq_zero.mp hlen.symm)
    simp [finalizeOrder, hr, hopen, hne, hcust, hpay, hsub, h0, hlen]
  refine ⟨hzero, hkept, hsubmit, ?_, ?_, ?_⟩
  · by_cases hlen : (safeItemsOf (cartItemsOf inp.cart) fresh).length =
        (cartItemsOf inp.cart).length
    · rw [hsubmit hlen]
      simp [hlen]
    · by_cases h0 : safeItemsOf (cartItemsOf inp.cart) fresh = []
      · rw [hzero h0]
        simp [hlen]
      · rw [hkept h0 hlen]
        simp [hlen]
  · exact length_filterMap_eq_iff (surviving fresh) (cartItemsOf inp.cart)
  · exact List.filterMap_eq_nil_iff

/-- Concrete instance of C1: a one-line cart whose product is still
present and active in the fresh catalog survives whole, so the
create-order POST is issued with the payload. -/
theorem C1_safe_items_gate_witness :
    finalizeOrder c1inp c1fresh =
      (FinalizeResult.submitted
        (mkPayload c1rest c1inp (safeItemsOf (cartItemsOf c1inp.cart) c1fresh)),
       [Request.getProducts, Request.postOrder]) :=
  (C1_safe_items_gate c1inp c1fresh c1rest rfl rfl (by decide) (by decide)
    (by decide) rfl).2.2.1 (by decide)

end Cardapio

namespace Cardapio

/- ===== C4: reconciliation lemmas ===== -/

theorem cartErase_eq_of_not_mem (c : Cart) (id : String)
    (h : id ∉ cartKeys c) : cartErase c id = c := by
  induction c with
  | nil => rfl
  | cons e rest ih =>
    rw [show cartKeys (e :: rest) = e.1 :: cartKeys rest from rfl,
      List.mem_cons] at h
    push_neg at h
    simp [cartErase, Ne.symm h.1, ih h.2]

theorem cartLookup_eq_none_of_not_mem (c : Cart) (id : String)
    (h : id ∉ cartKeys c) : cartLookup c id = none := by
  induction c with
  | nil => rfl
  | cons e rest ih =>
    rw [show cartKeys (e :: rest) = e.1 :: cartKeys rest from rfl,
      List.mem_cons] at h
    push_neg at h
    simp [cartLookup, Ne.symm h.1, ih h.2]

theorem syncStep_cons_ne (fresh : List Product) (k : String) (x : CartItem)
    (a : Cart) (id : String) (hk : k ≠ id) :
    syncStep fresh ((k, x) :: a) id = (k, x) :: syncStep fresh a id := by
  unfold syncStep
  cases lookupFresh fresh id with
  | none => simp [cartErase, hk]
  | some p =>
    by_cases hp : p.active = false
    · simp [hp, cartErase, hk]
    · simp only [hp, if_false]
      have hl : cartLookup ((k, x) :: a) id = cartLookup a id := by
        simp [cartLookup, hk]
      rw [hl]
      cases cartLookup a id with
      | none => rfl
      | some item => simp [cartSet, hk]

theorem foldl_syncStep_cons (fresh : List Product) (k : String) (x : CartItem) :
    ∀ (js : List String) (a : Cart), k ∉ js →
      js.foldl (syncStep fresh) ((k, x) :: a) =
        (k, x) :: js.foldl (syncStep fresh) a := by
  intro js
  induction js with
  | nil => intro a _; rfl
  | cons j rest ih =>
    intro a hk
    rw [List.mem_cons] at hk
    push_neg at hk
    simp only [List.foldl_cons]
    rw [syncStep_cons_ne fresh k x a j hk.1]
    exact ih _ hk.2

theorem syncEntryStep_fst (fresh : List Product) (a : Cart) (b : Bool)
    (id : String) : (syncEntryStep fresh (a, b) id).1 = syncStep fresh a id := by
  unfold syncEntryStep syncStep
  cases lookupFresh fresh id with
  | none => rfl
  | some p =>
    by_cases hp : p.active = false
    · simp [hp]
    · simp only [hp, if_false]
      cases cartLookup a id <;> rfl

theorem foldl_syncEntryStep_fst (fresh : List Product) :
    ∀ (l : List String) (a : Cart) (b : Bool),
      (l.foldl (syncEntryStep fresh) (a, b)).1 = l.foldl (syncStep fresh) a := by
  intro l
  induction l with
  | nil => intro a b; rfl
  | cons k rest ih =>
    intro a b
    simp only [List.foldl_cons]
    have h := ih (syncEntryStep fresh (a, b) k).1 (syncEntryStep fresh (a, b) k).2
    rw [show ((syncEntryStep fresh (a, b) k).1, (syncEntryStep fresh (a, b) k).2) =
      syncEntryStep fresh (a, b) k from rfl] at h
    rw [h, syncEntryStep_fst]

theorem foldl_sync_filterMap (fresh : List Product) :
    ∀ (c : Cart), (cartKeys c).Nodup →
      (cartKeys c).foldl (syncStep fresh) c = c.filterMap (syncEntry fresh) := by
  intro c
  induction c with
  | nil => intro _; rfl
  | cons e rest ih =>
    intro hnd
    obtain ⟨k, it⟩ := e
    rw [show cartKeys ((k, it) :: rest) = k :: cartKeys rest from rfl,
      List.nodup_cons] at hnd
    obtain ⟨hk, hnd'⟩ := hnd
    rw [show cartKeys ((k, it) :: rest) = k :: cartKeys rest from rfl]
    simp only [List.foldl_cons]
    cases hm : lookupFresh fresh k with
    | none =>
      have hstep : syncStep fresh ((k, it) :: rest) k = rest := by
        unfold syncStep
        simp only [hm]
        simp [cartErase, cartErase_eq_of_not_mem rest k hk]
      rw [hstep, ih hnd']
      simp [List.filterMap_cons, syncEntry, hm]
    | some p =>
      by_cases hp : p.active = false
      · have hstep : syncStep fresh ((k, it) :: rest) k = rest := by
          unfold syncStep
          simp only [hm, hp, if_true]
          simp [cartErase, cartErase_eq_of_not_mem rest k hk]
        rw [hstep, ih hnd']
        simp [List.filterMap_cons, syncEntry, hm, hp]
      · have hstep : syncStep fresh ((k, it) :: rest) k =
            (k, CartItem.mk p it.qty) :: rest := by
          unfold syncStep
          simp only [hm, hp, if_false]
          have hl : cartLookup ((k, it) :: rest) k = some it := by
            simp [cartLookup]
          rw [hl]
          simp [cartSet]
        rw [hstep, foldl_syncStep_cons fresh k ⟨p, it.qty⟩ (cartKeys rest) rest hk,
          ih hnd']
        simp [List.filterMap_cons, syncEntry, hm, hp]

end Cardapio

namespace Cardapio

theorem syncEntry_key (fresh : List Product) (e e' : String × CartItem)
    (h : syncEntry fresh e = some e') : e'.1 = e.1 := by
  unfold syncEntry at h
  cases hm : lookupFresh fresh e.1 with
  | none => rw [hm] at h; exact absurd h (by simp)
  | some p =>
    rw [hm] at h
    by_cases hp : p.active = false
    · simp [hp] at h
    · simp only [hp, if_false] at h
      injection h with h'
      rw [← h']

theorem cartKeys_filterMap_subset (fresh : List Product) :
    ∀ (c : Cart) (id : String),
      id ∈ cartKeys (c.filterMap (syncEntry fresh)) → id ∈ cartKeys c := by
  intro c
  induction c with
  | nil => intro id h; exact absurd h (by simp [cartKeys])
  | cons e rest ih =>
    intro id hid
    rw [List.filterMap_cons] at hid
    rw [show cartKeys (e :: rest) = e.1 :: cartKeys rest from rfl, List.mem_cons]
    cases hs : syncEntry fresh e with
    | none =>
      rw [hs] at hid
      exact Or.inr (ih id hid)
    | some e' =>
      rw [hs] at hid
      rw [show cartKeys (e' :: List.filterMap (syncEntry fresh) rest) =
        e'.1 :: cartKeys (List.filterMap (syncEntry fresh) rest) from rfl,
        List.mem_cons] at hid
      rcases hid with h1 | h2
      · exact Or.inl (by rw [h1, syncEntry_key fresh e e' hs])
      · exact Or.inr (ih id h2)

theorem cartLookup_filterMap (fresh : List Product) :
    ∀ (c : Cart), (cartKeys c).Nodup → ∀ id : String,
      cartLookup (c.filterMap (syncEntry fresh)) id =
        (cartLookup c id).bind
          (fun it => (syncEntry fresh (id, it)).map (·.2)) := by
  intro c
  induction c with
  | nil => intro _ id; rfl
  | cons e rest ih =>
    intro hnd id
    obtain ⟨k, it⟩ := e
    rw [show cartKeys ((k, it) :: rest) = k :: cartKeys rest from rfl,
      List.nodup_cons] at hnd
    obtain ⟨hk, hnd'⟩ := hnd
    rw [List.filterMap_cons]
    by_cases hid : k = id
    · subst hid
      cases hs : syncEntry fresh (k, it) with
      | none =>
        have hnone : cartLookup (List.filterMap (syncEntry fresh) rest) k = none :=
          cartLookup_eq_none_of_not_mem _ _
            (fun hmem => hk (cartKeys_filterMap_subset fresh rest k hmem))
        rw [hnone]
        simp [cartLookup, hs]
      | some e' =>
        have hkey : e'.1 = k := syncEntry_key fresh (k, it) e' hs
        simp [cartLookup, hkey, hs]
    · cases hs : syncEntry fresh (k, it) with
      | none =>
        rw [ih hnd' id]
        simp [cartLookup, hid]
      | some e' =>
        have hkey : e'.1 = k := syncEntry_key fresh (k, it) e' hs
        have hstep : cartLookup (e' :: List.filterMap (syncEntry fresh) rest) id =
            cartLookup (List.filterMap (syncEntry fresh) rest) id := by
          simp [cartLookup, hkey, hid]
        rw [hstep, ih hnd' id]
        simp [cartLookup, hid]

theorem lookupFresh_append_single (ps : List Product) (p : Product)
    (id : String) :
    lookupFresh (ps ++ [p]) id =
      if p.id = id then some p else lookupFresh ps id := by
  unfold lookupFresh
  rw [List.foldl_append]
  rfl

theorem lookupFresh_eq_some_iff (id : String) (p : Product) :
    ∀ ps : List Product, (ps.map Product.id).Nodup →
      (lookupFresh ps id = some p ↔ p ∈ ps ∧ p.id = id) := by
  intro ps
  induction ps using List.reverseRecOn with
  | nil => intro _; simp [lookupFresh]
  | append_singleton l q ihl =>
    intro hf
    rw [List.map_append] at hf
    have hnd : (l.map Product.id).Nodup := (List.nodup_append.mp hf).1
    have hqid : q.id ∉ l.map Product.id := by
      have hdisj := (List.nodup_append.mp hf).2.2
      intro hmem
      exact hdisj hmem (by simp)
    rw [lookupFresh_append_single]
    by_cases hq : q.id = id
    · rw [if_pos hq]
      constructor
      · intro h
        injection h with h'
        exact ⟨by rw [← h']; exact List.mem_append_right _ (by simp),
          by rw [← h']; exact hq⟩
      · rintro ⟨hmem, hpid⟩
        rcases List.mem_append.mp hmem with hl | hr
        · exfalso
          apply hqid
          rw [hq, ← hpid]
          exact List.mem_map_of_mem Product.id hl
        · simp at hr
          rw [hr]
    · rw [if_neg hq]
      rw [ihl hnd]
      constructor
      · rintro ⟨hmem, hpid⟩
        exact ⟨List.mem_append_left _ hmem, hpid⟩
      · rintro ⟨hmem, hpid⟩
        rcases List.mem_append.mp hmem with hl | hr
        · exact ⟨hl, hpid⟩
        · exfalso
          simp at hr
          rw [hr] at hpid
          exact hq hpid

end Cardapio

namespace Cardapio

/-- C4: reconciliation with a fresh catalog (unique product ids, unique
cart keys) keeps exactly the cart entries whose product id is present and
active in the fresh list — each retained entry keeping its quantity and
taking its product record from the fresh list — and drops exactly the
entries whose product is absent or inactive there. -/
theorem C4_reconcile_exact (fresh : List Product) (c : Cart)
    (hc : (cartKeys c).Nodup) (hf : (fresh.map Product.id).Nodup)
    (id : String) :
    (∀ e : CartItem,
      cartLookup (syncCartWithProducts fresh c).1 id = some e ↔
        ∃ it, cartLookup c id = some it ∧
          ∃ p, p ∈ fresh ∧ p.id = id ∧ p.active = true ∧
            e = CartItem.mk p it.qty)
    ∧ (cartLookup (syncCartWithProducts fresh c).1 id = none ↔
        (cartLookup c id = none ∨
          ∀ p ∈ fresh, p.id = id → p.active = false)) := by
  have hfold : (syncCartWithProducts fresh c).1 =
      c.filterMap (syncEntry fresh) := by
    unfold syncCartWithProducts
    rw [foldl_syncEntryStep_fst fresh (cartKeys c) c false]
    exact foldl_sync_filterMap fresh c hc
  rw [hfold, cartLookup_filterMap fresh c hc id]
  cases hcc : cartLookup c id with
  | none =>
    constructor
    · intro e
      simp
    · simp
  | some it =>
    cases hm : lookupFresh fresh id with
    | none =>
      have hnop : ∀ q ∈ fresh, q.id ≠ id := by
        intro q hqmem hqid
        have hq := (lookupFresh_eq_some_iff id q fresh hf).mpr ⟨hqmem, hqid⟩
        rw [hm] at hq
        exact absurd hq (by simp)
      have hs : syncEntry fresh (id, it) = none := by
        simp [syncEntry, hm]
      constructor
      · intro e
        simp only [Option.some_bind, hs, Option.map_none']
        constructor
        · intro hcontra
          exact absurd hcontra (by simp)
        · rintro ⟨it', hit', p, hpmem, hpid, hpact, he⟩
          exact absurd hpid (hnop p hpmem)
      · simp only [Option.some_bind, hs, Option.map_none']
        constructor
        · intro _
          exact Or.inr (fun q hqmem hqid => absurd hqid (hnop q hqmem))
        · intro _
          trivial
    | some p =>
      have hpm := (lookupFresh_eq_some_iff id p fresh hf).mp hm
      by_cases hact : p.active = false
      · have hs : syncEntry fresh (id, it) = none := by
          simp [syncEntry, hm, hact]
        constructor
        · intro e
          simp only [Option.some_bind, hs, Option.map_none']
          constructor
          · intro hcontra
            exact absurd hcontra (by simp)
          · rintro ⟨it', hit', q, hqmem, hqid, hqact, he⟩
            have hq := (lookupFresh_eq_some_iff id q fresh hf).mpr ⟨hqmem, hqid⟩
            rw [hm] at hq
            injection hq with hq'
            rw [← hq'] at hqact
            rw [hact] at hqact
            exact absurd hqact (by simp)
        · simp only [Option.some_bind, hs, Option.map_none']
          constructor
          · intro _
            refine Or.inr (fun q hqmem hqid => ?_)
            have hq := (lookupFresh_eq_some_iff id q fresh hf).mpr ⟨hqmem, hqid⟩
            rw [hm] at hq
            injection hq with hq'
            rw [← hq']
            exact hact
          · intro _
            trivial
      · have hactT : p.active = true := by
          revert hact; cases p.active <;> simp
        have hs : syncEntry fresh (id, it) = some (id, CartItem.mk p it.qty) := by
          simp [syncEntry, hm, hact]
        constructor
        · intro e
          simp only [Option.some_bind, hs, Option.map_some']
          constructor
          · intro he
            injection he with he'
            exact ⟨it, rfl, p, hpm.1, hpm.2, hactT, he'.symm⟩
          · rintro ⟨it', hit', q, hqmem, hqid, hqact, he⟩
            injection hit' with hit''
            have hq := (lookupFresh_eq_some_iff id q fresh hf).mpr ⟨hqmem, hqid⟩
            rw [hm] at hq
            injection hq with hq'
            rw [he, ← hq', ← hit'']
        · simp only [Option.some_bind, hs, Option.map_some']
          constructor
          · intro hcontra
            exact absurd hcontra (by simp)
          · rintro (h1 | h2)
            · exact absurd h1 (by simp)
            · have := h2 p hpm.1 hpm.2
              rw [hactT] at this
              exact absurd this (by simp)

/-- Concrete instance of C4: the line whose product is still active keeps
its quantity and takes the refreshed product record. -/
theorem C4_reconcile_exact_witness :
    cartLookup (syncCartWithProducts c4fresh c4cart).1 "A" =
      some (CartItem.mk c4prodA2 2) :=
  ((C4_reconcile_exact c4fresh c4cart (by decide) (by decide) "A").1
    (CartItem.mk c4prodA2 2)).mpr
    ⟨CartItem.mk c4prodA 2, by decide, c4prodA2, by decide, rfl, rfl, rfl⟩

end Cardapio
